import Mathlib

/-!
Verification development for the Clisp interpreter (a small Lisp-like
language implemented in C++).  The C++ source is shallowly embedded:
the tagged value `Cell` (a `Kind` tag plus a `boost::variant` payload),
the keyword table, the lexer over a character stream, the recursive
descent parser `expr`, the environment chain, and the mutually
recursive evaluator `eval` / `evlist` / `apply` / `apply_prim` are
translated into total Lean functions.  C++ `double` payloads are
modelled as `Int` (every property considered here only exercises
integer literals and the claims under study are representation
independent); exceptions (`throw`, `boost::bad_get`) and undefined
behaviour (out-of-bounds vector access, dangling environment pointers,
reads of indeterminate members) are modelled by `Option`, with `none`
for the error/undefined branch.  Recursion that is unbounded in the
source takes an explicit fuel argument.
-/

namespace Clisp

/-- The `Kind` tag of the C++ `enum class Kind : char`. -/
inductive Kind where
  | Include | Begin | Cat | Cons | Car | Cdr | List | Let
  | Define | Lambda | Number | Name | Expr | Proc | False | True
  | Cond | Else | End | Empty
  | Quote | Lp | Rp | And | Not | Or
  | Mul | Add | Sub | Div | Less | Equal | Greater
  | Comment
  deriving DecidableEq, Repr

mutual
/-- The C++ `Cell`: a `Kind` tag together with a
`boost::variant<string, double, Proc*, List>` payload. -/
inductive Cell where
  | mk (kind : Kind) (data : Data)
inductive Data where
  | str (s : String)
  | num (n : Int)
  | procRef (p : Nat)
  | list (l : List Cell)
end

def Cell.kind : Cell → Kind
  | .mk k _ => k

def Cell.data : Cell → Data
  | .mk _ d => d

/-- `Cell(Kind k)`: the data member is the variant's first alternative,
default constructed, i.e. the empty string. -/
def mkK (k : Kind) : Cell := Cell.mk k (Data.str "")

/-- `Cell(const double n)`. -/
def numCell (n : Int) : Cell := Cell.mk Kind.Number (Data.num n)

/-- `Cell(const string& s)`. -/
def nameCell (s : String) : Cell := Cell.mk Kind.Name (Data.str s)

/-- `Cell(Proc* p)`, with pointers into the `procs` arena modelled as
indices. -/
def procCell (p : Nat) : Cell := Cell.mk Kind.Proc (Data.procRef p)

/-- `Cell(List l)`. -/
def exprCell (l : List Cell) : Cell := Cell.mk Kind.Expr (Data.list l)

/-- `explicit Cell(bool b)`. -/
def boolCell (b : Bool) : Cell :=
  if b then mkK Kind.True else mkK Kind.False

/-- `Cell()` - the default cell, of kind `End`. -/
def endCell : Cell := mkK Kind.End

/-- `operator bool()`: every cell is truthy except kind `False`. -/
def truthy (c : Cell) : Bool := c.kind ≠ Kind.False

/-- The keyword table of the lexer, exactly as in the source.  Note
that the source maps the spelling `not` to `Kind::Or`, not to
`Kind::Not`. -/
def keywords : List (String × Kind) :=
  [("define", Kind.Define), ("lambda", Kind.Lambda), ("cond", Kind.Cond),
   ("cons", Kind.Cons), ("car", Kind.Car), ("cdr", Kind.Cdr),
   ("list", Kind.List), ("else", Kind.Else), ("empty?", Kind.Empty),
   ("and", Kind.And), ("or", Kind.Or), ("not", Kind.Or),
   ("cat", Kind.Cat), ("include", Kind.Include), ("begin", Kind.Begin),
   ("let", Kind.Let)]

/-- `keywords.count(s)` / `keywords[s]` combined: lookup in the keyword
map. -/
def keywordsFind (s : String) : Option Kind :=
  (keywords.find? (fun kv => kv.fst = s)).map (·.snd)

/-- `boost::get<double>` on a cell's data: succeeds only when the
variant holds the double alternative, otherwise `bad_get` (`none`). -/
def getNum : Cell → Option Int
  | .mk _ (.num n) => some n
  | _ => none

/-- `boost::get<string>` on a cell's data. -/
def getStr : Cell → Option String
  | .mk _ (.str s) => some s
  | _ => none

/-- `boost::get<List>` on a cell's data. -/
def getList : Cell → Option (List Cell)
  | .mk _ (.list l) => some l
  | _ => none

/-- The first operand stored inside `less_visitor` / `equal_visitor`.
Throughout the program the visitors are only ever constructed from a
`double` or from a `string` (in `operator<`, `operator==` and in
`apply_prim`'s `Less`/`Equal`/`Greater` cases); the `List` and `Proc*`
constructors are never invoked, so only these two alternatives are
modelled. -/
inductive Stored where
  | num (d : Int)
  | str (s : String)

/-- `less_visitor` applied to the second operand's variant.  Members of
the visitor not set by its constructor are default-initialized: the
`string` member is `""` and the `List` member is the empty vector,
while the `double` and `Proc*` members hold indeterminate values, so
comparisons that read them are undefined behaviour (`none`). -/
def lessVisit : Stored → Data → Option Bool
  | .num d, .num n => some (decide (d < n))
  | .num _, .str s => some (decide (("" : String) < s))
  | .num _, .list l => some (!l.isEmpty)
  | .num _, .procRef _ => none
  | .str s, .str s2 => some (decide (s < s2))
  | .str _, .num _ => none
  | .str _, .list l => some (!l.isEmpty)
  | .str _, .procRef _ => none

/-- `equal_visitor` applied to the second operand's variant; same
default-initialization considerations as for `lessVisit`.  The `Proc*`
pointer-equality branch reads the indeterminate `proc` member. -/
def equalVisit : Stored → Data → Option Bool
  | .num d, .num n => some (decide (d = n))
  | .num _, .str s => some (decide (("" : String) = s))
  | .num _, .list l => some l.isEmpty
  | .num _, .procRef _ => none
  | .str s, .str s2 => some (decide (s = s2))
  | .str _, .num _ => none
  | .str _, .list l => some l.isEmpty
  | .str _, .procRef _ => none

/-- The left folds of `apply_prim`'s arithmetic cases: seed from the
first argument (`*args.begin()`, out of bounds when `args` is empty),
then fold `boost::get<double>` of each further argument. -/
def foldNums (f : Int → Int → Int) : List Cell → Option Int
  | [] => none
  | a :: rest =>
    match getNum a with
    | none => none
    | some x => rest.foldlM (fun acc c => (getNum c).map (f acc)) x

/-- The left fold of `apply_prim`'s `Cat` case over strings. -/
def foldStrs : List Cell → Option String
  | [] => none
  | a :: rest =>
    match getStr a with
    | none => none
    | some x => rest.foldlM (fun acc c => (getStr c).map (acc ++ ·)) x

/-- `apply_prim(prim, args)`: dispatch on the primitive's kind over a
fully evaluated argument list. -/
def applyPrim (prim : Cell) (args : List Cell) : Option Cell :=
  match prim.kind with
  | Kind.Add => (foldNums (· + ·) args).map numCell
  | Kind.Cat => (foldStrs args).map (fun s => Cell.mk Kind.Name (Data.str s))
  | Kind.Sub => (foldNums (· - ·) args).map numCell
  | Kind.Mul => (foldNums (· * ·) args).map numCell
  | Kind.Div => (foldNums (· / ·) args).map numCell
  | Kind.Less =>
    match args.get? 0, args.get? 1 with
    | some a0, some a1 =>
      if a0.kind = Kind.Number then
        (getNum a0).bind fun d => (lessVisit (.num d) a1.data).map boolCell
      else
        (getStr a0).bind fun s => (lessVisit (.str s) a1.data).map boolCell
    | _, _ => none
  | Kind.Equal =>
    match args.get? 0, args.get? 1 with
    | some a0, some a1 =>
      if a0.kind = Kind.Number then
        (getNum a0).bind fun d => (equalVisit (.num d) a1.data).map boolCell
      else
        (getStr a0).bind fun s => (equalVisit (.str s) a1.data).map boolCell
    | _, _ => none
  | Kind.Empty =>
    match args.get? 0 with
    | some a0 =>
      if a0.kind = Kind.Expr then
        (getList a0).map (fun l => boolCell (l.length = 0))
      else some (mkK Kind.False)
    | none => none
  | Kind.Greater =>
    -- a > b  ==  b < a: dispatch on args[1], store args[1], visit args[0]
    match args.get? 0, args.get? 1 with
    | some a0, some a1 =>
      if a1.kind = Kind.Number then
        (getNum a1).bind fun d => (lessVisit (.num d) a0.data).map boolCell
      else
        (getStr a1).bind fun s => (lessVisit (.str s) a0.data).map boolCell
    | _, _ => none
  | Kind.And =>
    match args.find? (fun c => c.kind = Kind.False) with
    | some c => some c
    | none => some (mkK Kind.True)
  | Kind.Or =>
    match args.find? (fun c => c.kind = Kind.True) with
    | some c => some c
    | none => some (mkK Kind.False)
  | Kind.Not =>
    match args.get? 0 with
    | some a0 => some (mkK (if a0.kind = Kind.False then Kind.True else Kind.False))
    | none => none
  | Kind.List => some (exprCell args)
  | Kind.Cons => some (exprCell args)
  | Kind.Car =>
    match args.get? 0 with
    | some a0 =>
      if a0.kind ≠ Kind.Expr then some a0
      else (getList a0).bind (fun l => l.get? 0)
    | none => none
  | Kind.Cdr =>
    match args.get? 0 with
    | some a0 =>
      if a0.kind ≠ Kind.Expr then some (exprCell [])
      else
        (getList a0).bind fun l =>
          if l.length = 1 then some (exprCell [])
          else if l.length = 2 then l.get? 1
          else if l.length = 0 then
            none  -- List{list.begin() + 1, list.end()} on an empty vector: invalid range
          else some (exprCell (l.drop 1))
    | none => none
  | _ => none  -- throw runtime_error("Mismatoh in apply_prim")

/-! ## Lexer

`Cell_stream::get` over the active input stream; the stream is
modelled as the remaining list of characters, `putback` as consing a
character back on.  `operator>>` into a `double` is modelled for the
decimal-integer literals the language's sources use. -/

/-- `isspace` of the C locale. -/
def isSpaceC (c : Char) : Bool :=
  c = ' ' || c = '\t' || c = '\n' || c = '\r' || c = '\x0b' || c = '\x0c'

/-- The single-character tokens of the lexer's first switch group;
`static_cast<Kind>(c)` is the enum alternative whose value is `c`. -/
def singleKind (c : Char) : Option Kind :=
  if c = '!' then some Kind.Not
  else if c = '&' then some Kind.And
  else if c = '\'' then some Kind.Quote
  else if c = '(' then some Kind.Lp
  else if c = ')' then some Kind.Rp
  else if c = '*' then some Kind.Mul
  else if c = '+' then some Kind.Add
  else if c = '-' then some Kind.Sub
  else if c = ';' then some Kind.Comment
  else if c = '/' then some Kind.Div
  else if c = '<' then some Kind.Less
  else if c = '=' then some Kind.Equal
  else if c = '>' then some Kind.Greater
  else if c = '|' then some Kind.Or
  else none

/-- The head characters the lexer treats as potentially starting a
keyword (the `case 'a': ... case 'o':` group). -/
def letterStart (c : Char) : Bool :=
  c = 'a' || c = 'c' || c = 'd' || c = 'e' || c = 'i' || c = 'l' ||
  c = 'n' || c = 'o'

/-- `*ip >> temp` into a `string`: skip whitespace, then read up to the
next whitespace. -/
def readTok (s : List Char) : List Char × List Char :=
  let s1 := s.dropWhile (fun c => isSpaceC c)
  (s1.takeWhile (fun c => !isSpaceC c), s1.dropWhile (fun c => !isSpaceC c))

/-- `while (temp.back() == ')')` - strip trailing `)` characters from
the token and put each back onto the stream. -/
def stripRp (tok : List Char) (s : List Char) : List Char × List Char :=
  let k := (tok.reverse.takeWhile (fun c => c = ')')).length
  (tok.take (tok.length - k), List.replicate k ')' ++ s)

def digitsToNat (ds : List Char) : Nat :=
  ds.foldl (fun a c => a * 10 + (c.toNat - 48)) 0

/-- `*ip >> temp` into a `double`, restricted to the unsigned decimal
integer literals exercised here (the lexer only enters this path on a
leading digit). -/
def readNumTok (s : List Char) : Int × List Char :=
  let ds := s.takeWhile (fun c => c.isDigit)
  (Int.ofNat (digitsToNat ds), s.drop ds.length)

/-- `Cell_stream::get()`: produce the next token cell and the rest of
the stream.  A keyword hit only assigns `ct.kind`, leaving stale data
in `ct.data`; since no consumer reads the payload of a keyword cell,
that payload is modelled as the empty string. -/
def lexGet (s : List Char) : List Char × Cell :=
  let s0 := s.dropWhile (fun c => isSpaceC c)
  match s0 with
  | [] => ([], mkK Kind.End)
  | c :: rest =>
    match singleKind c with
    | some k => (rest, mkK k)
    | none =>
      if c.isDigit then
        let (v, s1) := readNumTok (c :: rest)
        (s1, numCell v)
      else
        let (tokRaw, s1) := readTok (c :: rest)
        let (tok, s2) := stripRp tokRaw s1
        if letterStart c then
          match keywordsFind (String.mk tok) with
          | some k => (s2, mkK k)
          | none => (s2, nameCell (String.mk tok))
        else (s2, nameCell (String.mk tok))

/-! ## Parser -/

/-- `Cell_stream::ignoreln()`: `ip->ignore(9001, '\n')` - discard
characters up to and including the next newline. -/
def ignoreln (s : List Char) : List Char :=
  match s.dropWhile (fun c => c ≠ '\n') with
  | [] => []
  | _ :: r => r

/-- The body of `expr`: consume tokens until a matching `Rp` or `End`,
recursing at `Lp`.  The result carries the final stream, the lexer's
current token (`cs.current()`, inspected by the caller of a nested
parse), and the accumulated sequence, or `none` for the
`"')' expected"` error. -/
def parseLoop : Nat → List Char → List Cell → List Char × Cell × Option (List Cell)
  | 0, s, _ => (s, endCell, none)
  | fuel + 1, s, acc =>
    let (s1, t) := lexGet s
    match t.kind with
    | Kind.Lp =>
      match parseLoop fuel s1 [] with
      | (s2, cur, some inner) =>
        if cur.kind = Kind.Rp then parseLoop fuel s2 (acc ++ [exprCell inner])
        else (s2, cur, none)  -- throw runtime_error("')' expected")
      | (s2, cur, none) => (s2, cur, none)
    | Kind.End => (s1, t, some acc)
    | Kind.Rp => (s1, t, some acc)
    | Kind.Comment => parseLoop fuel (ignoreln s1) acc
    | _ => parseLoop fuel s1 (acc ++ [t])

/-- `while (getfirst && cs.get().kind == Kind::Comment) cs.ignoreln();`
the prelude of `expr(true)`: it eats comment lines and then one more
token (the opening parenthesis of the top-level expression). -/
def eatFirst : Nat → List Char → List Char
  | 0, s => s
  | fuel + 1, s =>
    let (s1, t) := lexGet s
    if t.kind = Kind.Comment then eatFirst fuel (ignoreln s1) else s1

/-- `expr(getfirst)`: parse one expression from the stream. -/
def exprParse (fuel : Nat) (s : List Char) (getfirst : Bool) :
    List Char × Option (List Cell) :=
  let s1 := if getfirst then eatFirst fuel s else s
  let (s2, _, r) := parseLoop fuel s1 []
  (s2, r)

/-! ## Environments and interpreter state

The C++ globals are `Env e0`, `vector<Env> envs`, `vector<Proc> procs`.
Pointers `Env*` are modelled as references: the global `&e0`, indices
into the `envs` arena, or stack-allocated locals (the `localenv` of a
`let`, a block-scoped C++ object).  A stack local is registered in a
`locals` store while alive and its slot is overwritten with `none`
when the C++ object is destroyed at the end of the `let` case, so a
later dereference of the dangling pointer is `none` (undefined
behaviour in the source). -/

inductive EnvRef where
  | global
  | arena (i : Nat)
  | stackLoc (i : Nat)
  deriving DecidableEq, Repr

/-- One `Env`: the `map<string, Cell>` frame plus the outer pointer. -/
structure Frame where
  map : List (String × Cell)
  outer : Option EnvRef

/-- `struct Proc { List params; List body; Env* env; }`. -/
structure ProcRec where
  params : List Cell
  body : List Cell
  env : EnvRef

/-- The interpreter's mutable global state. -/
structure Interp where
  e0 : List (String × Cell)
  envs : List Frame
  procs : List ProcRec
  locals : List (Option Frame)

/-- `map::operator[]` + assignment: insert or overwrite a key. -/
def frameSet (m : List (String × Cell)) (n : String) (v : Cell) :
    List (String × Cell) :=
  match m with
  | [] => [(n, v)]
  | (k, w) :: rest => if k = n then (k, v) :: rest else (k, w) :: frameSet rest n v

/-- `map::find` for a frame. -/
def frameGet (m : List (String × Cell)) (n : String) : Option Cell :=
  (m.find? (fun kv => kv.fst = n)).map (·.snd)

/-- Dereference an `Env*`.  A dead stack local yields `none`. -/
def derefEnv (st : Interp) : EnvRef → Option Frame
  | .global => some ⟨st.e0, none⟩
  | .arena i => st.envs.get? i
  | .stackLoc i =>
    match st.locals.get? i with
    | some (some f) => some f
    | _ => none

/-- `Env::findframe` / `Env::lookup`: walk the outer chain to the
first frame containing the name; "Unbound variable" is `none`.  The
walk is fuelled; chains in reachable states are acyclic and shorter
than the fuel supplied by `lookupEnv`. -/
def lookupLoop : Nat → Interp → EnvRef → String → Option Cell
  | 0, _, _, _ => none
  | fuel + 1, st, ref, n =>
    match derefEnv st ref with
    | none => none
    | some f =>
      match frameGet f.map n with
      | some v => some v
      | none =>
        match f.outer with
        | some o => lookupLoop fuel st o n
        | none => none  -- throw runtime_error("Unbound variable")

def lookupEnv (st : Interp) (ref : EnvRef) (n : String) : Option Cell :=
  lookupLoop (st.envs.length + st.locals.length + 2) st ref n

/-- `(*env)[n] = v`: write into the designated frame itself (not into
the frame found by `findframe`).  Writing through a dangling stack
pointer is undefined behaviour (`none`). -/
def writeEnv (st : Interp) (ref : EnvRef) (n : String) (v : Cell) :
    Option Interp :=
  match ref with
  | .global => some { st with e0 := frameSet st.e0 n v }
  | .arena i =>
    match st.envs.get? i with
    | some f => some { st with envs := st.envs.set i { f with map := frameSet f.map n v } }
    | none => none
  | .stackLoc i =>
    match st.locals.get? i with
    | some (some f) =>
      some { st with locals := st.locals.set i (some { f with map := frameSet f.map n v }) }
    | _ => none

/-- `procs.push_back(...)`; the returned handle is `&procs.back()`. -/
def pushProc (st : Interp) (r : ProcRec) : Interp × Nat :=
  ({ st with procs := st.procs ++ [r] }, st.procs.length)

/-- `envs.push_back(newenv); return &envs.back();` in `Parser::bind`. -/
def pushEnvFrame (st : Interp) (f : Frame) : Interp × EnvRef :=
  ({ st with envs := st.envs ++ [f] }, EnvRef.arena st.envs.length)

/-- `Env localenv {env};` - a stack-allocated environment object. -/
def allocLocal (st : Interp) (outer : EnvRef) : Interp × Nat :=
  ({ st with locals := st.locals ++ [some ⟨[], some outer⟩] }, st.locals.length)

/-- Destruction of the stack-allocated `localenv` when the `let` case
block exits. -/
def killLocal (st : Interp) (slot : Nat) : Interp :=
  { st with locals := st.locals.set slot none }

/-- `Parser::bind(params, args, env)`: a new frame over `env` binding
parameter names to argument values pairwise; the frame is pushed onto
the `envs` arena. -/
def bindFrame (st : Interp) (params : List Cell) (args : List Cell)
    (env : EnvRef) : Option (Interp × EnvRef) :=
  if params.length ≠ args.length then none  -- arg count mismatch
  else
    match (params.zip args).foldlM
        (fun (m : List (String × Cell)) pq =>
          (getStr pq.fst).map (fun s => frameSet m s pq.snd)) [] with
    | none => none  -- get<string> on a non-Name parameter cell
    | some m => some (pushEnvFrame st ⟨m, some env⟩)

/-! ## Evaluator

`eval` and `evlist` iterate over a sequence of cells with a cursor
(the C++ iterator `p`, here an index); every dispatch case of `eval`
returns, so `eval` is a single dispatch on the first cell, except that
the `Cond` case's `while` loop, having matched no clause, falls
through into the adjacent primitive-procedures case with the cursor at
`expr.end()` (there is no `break`).  In `evlist`, cases may `break`
out of the switch and continue the enclosing `for` loop.  All
functions thread the interpreter state and take fuel. -/

mutual

def eval : Nat → Interp → List Cell → EnvRef → Interp × Option Cell
  | 0, st, _, _ => (st, none)
  | fuel + 1, st, e, env =>
    match e.get? 0 with
    | none => (st, some endCell)  -- empty sequence: the loop exits, return {}
    | some c =>
      match c.kind with
      | Kind.Include =>
        -- cout << get<string>(++p); cs.set_input(new ifstream{...}):
        -- the stream redirection is file I/O, outside the modelled state
        match (e.get? 1).bind getStr with
        | none => (st, none)
        | some _ => (st, some (mkK Kind.Include))
      | Kind.Number => (st, some c)
      | Kind.Quote =>
        match e.get? 1 with
        | none => (st, none)  -- Quote expects 1 arg
        | some q => (st, some q)
      | Kind.Begin =>
        -- evlist({++p, expr.end() - 1}, env); return eval({expr.back()}, env);
        if e.length < 2 then (st, none)  -- invalid iterator range
        else
          match evlistLoop fuel st ((e.drop 1).take (e.length - 2)) env 0 [] with
          | (st1, none) => (st1, none)
          | (st1, some _) =>
            match e.getLast? with
            | some last => eval fuel st1 [last] env
            | none => (st1, none)
      | Kind.Lambda =>
        if e.length ≤ 2 then (st, none)  -- Malformed lambda expression
        else
          match (e.get? 1).bind getList, (e.get? 2).bind getList with
          | some params, some body =>
            let (st1, h) := pushProc st ⟨params, body, env⟩
            (st1, some (procCell h))
          | _, _ => (st, none)
      | Kind.Define =>
        if e.length ≤ 2 then (st, none)  -- Malformed define expression
        else
          match e.get? 1 with
          | none => (st, none)
          | some np =>
            if np.kind = Kind.Name then
              match getStr np with
              | none => (st, none)
              | some s =>
                match eval fuel st (e.drop 2) env with
                | (st1, none) => (st1, none)
                | (st1, some v) =>
                  match writeEnv st1 env s v with
                  | none => (st1, none)
                  | some st2 => (st2, some v)
            else if np.kind = Kind.Expr then
              match getList np with
              | none => (st, none)
              | some decl =>
                match (decl.get? 0).bind getStr, (e.get? 2).bind getList with
                | some dname, some body =>
                  let (st1, h) := pushProc st ⟨decl.drop 1, body, env⟩
                  match writeEnv st1 env dname (procCell h) with
                  | none => (st1, none)
                  | some st2 => (st2, some (procCell h))
                | _, _ => (st, none)
            else (st, none)  -- Unfamiliar form to define
      | Kind.Expr =>
        match getList c with
        | none => (st, none)
        | some inner =>
          match evlistLoop fuel st inner env 0 [] with
          | (st1, none) => (st1, none)
          | (st1, some res) =>
            if res.length = 1 then (st1, res.get? 0)
            else (st1, some (exprCell res))
      | Kind.Let =>
        if e.length ≤ 2 then (st, none)  -- Let expects a list of definitions and a body
        else
          match (e.get? 1).bind getList with
          | none => (st, none)
          | some localvars =>
            let (st1, slot) := allocLocal st env
            match letBinds fuel st1 localvars env slot with
            | (st2, false) => (killLocal st2 slot, none)
            | (st2, true) =>
              match e.get? 2 with
              | none => (killLocal st2 slot, none)
              | some be =>
                if be.kind = Kind.Expr then
                  match getList be with
                  | none => (killLocal st2 slot, none)
                  | some bl =>
                    match eval fuel st2 bl (EnvRef.stackLoc slot) with
                    | (st3, r) => (killLocal st3 slot, r)
                else
                  match eval fuel st2 [be] (EnvRef.stackLoc slot) with
                  | (st3, r) => (killLocal st3 slot, r)
      | Kind.Cond => condLoopEval fuel st e env 1
      | Kind.Add | Kind.Sub | Kind.Mul | Kind.Div | Kind.Less | Kind.Greater
      | Kind.Equal | Kind.Cat | Kind.Cons | Kind.Car | Kind.Cdr | Kind.List
      | Kind.And | Kind.Or | Kind.Not | Kind.Empty =>
        primCaseEval fuel st e env 0
      | Kind.Name =>
        match getStr c with
        | none => (st, none)
        | some s =>
          match lookupEnv st env s with
          | none => (st, none)  -- Unbound variable
          | some x =>
            if x.kind ≠ Kind.Proc then (st, some x)
            else
              match collectArgs fuel st e env 1 [] with
              | (st1, none) => (st1, none)
              | (st1, some args) => applyProc fuel st1 x args
      | _ => (st, none)  -- throw runtime_error("Unmatched cell in eval")
termination_by structural fuel _ _ _ => fuel

/-- The primitive-procedures case of `eval`.  `condLoopEval` reaches
it with the cursor `p` at `e.length` (the fallthrough); the first
bound check passes (`p + 1 ≠ e.length`) and the dereference `*p` of
the end iterator is the undefined branch. -/
def primCaseEval : Nat → Interp → List Cell → EnvRef → Nat → Interp × Option Cell
  | 0, st, _, _, _ => (st, none)
  | fuel + 1, st, e, env, p =>
    if p + 1 = e.length then (st, none)  -- Primitives take at least one argument
    else
      match e.get? p with
      | none => (st, none)  -- *p dereferences the end iterator
      | some prim =>
        match evlistLoop fuel st (e.drop (p + 1)) env 0 [] with
        | (st1, none) => (st1, none)
        | (st1, some args) => (st1, applyPrim prim args)
termination_by structural fuel _ _ _ _ => fuel

/-- The `while (++p != expr.end())` loop of `eval`'s `Cond` case,
entered with `p` already incremented.  On exhaustion it falls through
into the primitive case with `p = e.length`. -/
def condLoopEval : Nat → Interp → List Cell → EnvRef → Nat → Interp × Option Cell
  | 0, st, _, _, _ => (st, none)
  | fuel + 1, st, e, env, p =>
    if p = e.length then primCaseEval fuel st e env p
    else
      match (e.get? p).bind getList with
      | none => (st, none)
      | some clause =>
        match clause.get? 0 with
        | none => (st, none)  -- clause[0] on an empty clause
        | some c0 =>
          if c0.kind = Kind.Else then
            if p + 1 = e.length then
              match clause.get? 1 with
              | none => (st, none)
              | some c1 => eval fuel st [c1] env
            else (st, none)  -- Else clause not at end of condition
          else
            match eval fuel st [c0] env with
            | (st1, none) => (st1, none)
            | (st1, some v) =>
              if truthy v then
                match clause.get? 1 with
                | none => (st1, none)
                | some c1 => eval fuel st1 [c1] env
              else condLoopEval fuel st1 e env (p + 1)
termination_by structural fuel _ _ _ _ => fuel

/-- The binding loop of the `Let` cases: for each `(name val)` pair,
the name is read from the pair, the value is evaluated in the *outer*
environment, and the binding is written into the stack-local frame.
The `Bool` is false when an exception unwinds out of the loop. -/
def letBinds : Nat → Interp → List Cell → EnvRef → Nat → Interp × Bool
  | 0, st, _, _, _ => (st, false)
  | fuel + 1, st, pairs, env, slot =>
    match pairs with
    | [] => (st, true)
    | pair :: rest =>
      match getList pair with
      | none => (st, false)
      | some pl =>
        match (pl.get? 0).bind getStr with
        | none => (st, false)
        | some pname =>
          match pl.get? 1 with
          | none => (st, false)  -- [1] on a too-short binding pair
          | some vexp =>
            match eval fuel st [vexp] env with
            | (st1, none) => (st1, false)
            | (st1, some v) =>
              match writeEnv st1 (EnvRef.stackLoc slot) pname v with
              | none => (st1, false)
              | some st2 => letBinds fuel st2 rest env slot
termination_by structural fuel _ _ _ _ => fuel

/-- The argument-collection shortcut loop shared by the `Name` cases
of `eval` and `evlist`: literals are taken as-is, quoted cells are
taken unevaluated (`*++p` does not check for the end), names are
looked up, and anything else hands the remainder to `evlist`. -/
def collectArgs : Nat → Interp → List Cell → EnvRef → Nat → List Cell →
    Interp × Option (List Cell)
  | 0, st, _, _, _, _ => (st, none)
  | fuel + 1, st, e, env, p, acc =>
    if p = e.length then (st, some acc)
    else
      match e.get? p with
      | none => (st, none)
      | some c =>
        if c.kind = Kind.Number then collectArgs fuel st e env (p + 1) (acc ++ [c])
        else if c.kind = Kind.Quote then
          match e.get? (p + 1) with
          | none => (st, none)  -- *++p dereferences the end iterator
          | some q => collectArgs fuel st e env (p + 2) (acc ++ [q])
        else if c.kind = Kind.Name then
          match (getStr c).bind (lookupEnv st env) with
          | none => (st, none)
          | some v => collectArgs fuel st e env (p + 1) (acc ++ [v])
        else
          match evlistLoop fuel st (e.drop p) env 0 [] with
          | (st1, none) => (st1, none)
          | (st1, some addargs) => (st1, some (acc ++ addargs))
termination_by structural fuel _ _ _ _ _ => fuel

/-- `apply(c, args)`: dereference the `Proc*`, bind the parameters
over the procedure's closure environment, evaluate the body there. -/
def applyProc : Nat → Interp → Cell → List Cell → Interp × Option Cell
  | 0, st, _, _ => (st, none)
  | fuel + 1, st, c, args =>
    match c.data with
    | Data.procRef h =>
      match st.procs.get? h with
      | none => (st, none)
      | some proc =>
        match bindFrame st proc.params args proc.env with
        | none => (st, none)
        | some (st1, newenv) => eval fuel st1 proc.body newenv
    | _ => (st, none)  -- boost::get<Proc*> on a non-proc payload
termination_by structural fuel _ _ _ => fuel

/-- The `for` loop of `evlist` with cursor `p` and accumulator `res`.
The loop condition is `p != expr.end()`, so a cursor that jumped past
the end keeps running and dereferences out of bounds (`none`). -/
def evlistLoop : Nat → Interp → List Cell → EnvRef → Nat → List Cell →
    Interp × Option (List Cell)
  | 0, st, _, _, _, _ => (st, none)
  | fuel + 1, st, e, env, p, res =>
    if p = e.length then (st, some res)
    else
      match e.get? p with
      | none => (st, none)  -- p ran past end (cond fallthrough in evlist)
      | some c =>
        match c.kind with
        | Kind.Include =>
          match (e.get? (p + 1)).bind getStr with
          | none => (st, none)
          | some _ => (st, some [])  -- cs.set_input(...); return {};
        | Kind.Number => evlistLoop fuel st e env (p + 1) (res ++ [c])
        | Kind.Quote =>
          if p + 1 = e.length then (st, none)  -- Quote expects 1 arg
          else
            match e.get? (p + 1) with
            | none => (st, none)
            | some q => evlistLoop fuel st e env (p + 2) (res ++ [q])
        | Kind.Begin =>
          if e.length < p + 2 then (st, none)  -- invalid range {p+1, end-1}
          else
            match evlistLoop fuel st ((e.drop (p + 1)).take (e.length - 1 - (p + 1))) env 0 [] with
            | (st1, none) => (st1, none)
            | (st1, some _) =>
              match e.getLast? with
              | some last =>
                match eval fuel st1 [last] env with
                | (st2, none) => (st2, none)
                | (st2, some v) => (st2, some (res ++ [v]))
              | none => (st1, none)
        | Kind.Lambda =>
          if p + 2 ≥ e.length then (st, none)  -- Malformed lambda expression
          else
            match (e.get? (p + 1)).bind getList, (e.get? (p + 2)).bind getList with
            | some params, some body =>
              let (st1, h) := pushProc st ⟨params, body, env⟩
              evlistLoop fuel st1 e env (p + 3) (res ++ [procCell h])
            | _, _ => (st, none)
        | Kind.Define =>
          if p + 2 ≥ e.length then (st, none)  -- Malformed define expression
          else
            match e.get? (p + 1) with
            | none => (st, none)
            | some np =>
              if np.kind = Kind.Name then
                match getStr np with
                | none => (st, none)
                | some s =>
                  match eval fuel st (e.drop (p + 2)) env with
                  | (st1, none) => (st1, none)
                  | (st1, some v) =>
                    match writeEnv st1 env s v with
                    | none => (st1, none)
                    | some st2 => (st2, some (res ++ [v]))
              else if np.kind = Kind.Expr then
                match getList np with
                | none => (st, none)
                | some decl =>
                  match (decl.get? 0).bind getStr, (e.get? (p + 2)).bind getList with
                  | some dname, some body =>
                    let (st1, h) := pushProc st ⟨decl.drop 1, body, env⟩
                    match writeEnv st1 env dname (procCell h) with
                    | none => (st1, none)
                    | some st2 => (st2, some (res ++ [procCell h]))
                  | _, _ => (st, none)
              else (st, none)  -- Unfamiliar form to define
        | Kind.Expr =>
          match getList c with
          | none => (st, none)
          | some inner =>
            match evlistLoop fuel st inner env 0 [] with
            | (st1, none) => (st1, none)
            | (st1, some r) =>
              if r.length = 1 then
                match r.get? 0 with
                | some x => evlistLoop fuel st1 e env (p + 1) (res ++ [x])
                | none => (st1, none)
              else evlistLoop fuel st1 e env (p + 1) (res ++ [exprCell r])
        | Kind.Let =>
          if p + 2 ≥ e.length then (st, none)  -- Let expects a list of definitions and a body
          else
            match (e.get? (p + 1)).bind getList with
            | none => (st, none)
            | some localvars =>
              let (st1, slot) := allocLocal st env
              match letBinds fuel st1 localvars env slot with
              | (st2, false) => (killLocal st2 slot, none)
              | (st2, true) =>
                match e.get? (p + 2) with
                | none => (killLocal st2 slot, none)
                | some be =>
                  if be.kind = Kind.Expr then
                    match getList be with
                    | none => (killLocal st2 slot, none)
                    | some bl =>
                      match eval fuel st2 bl (EnvRef.stackLoc slot) with
                      | (st3, none) => (killLocal st3 slot, none)
                      | (st3, some v) => (killLocal st3 slot, some (res ++ [v]))
                  else
                    match eval fuel st2 [be] (EnvRef.stackLoc slot) with
                    | (st3, none) => (killLocal st3 slot, none)
                    | (st3, some v) => (killLocal st3 slot, some (res ++ [v]))
        | Kind.Cond => condLoopEvlist fuel st e env (p + 1) res
        | Kind.Add | Kind.Sub | Kind.Mul | Kind.Div | Kind.Less | Kind.Greater
        | Kind.Equal | Kind.Cat | Kind.Cons | Kind.Car | Kind.Cdr | Kind.List
        | Kind.And | Kind.Or | Kind.Not | Kind.Empty =>
          if p + 1 = e.length then (st, none)  -- Primitives take at least one argument
          else
            match evlistLoop fuel st (e.drop (p + 1)) env 0 [] with
            | (st1, none) => (st1, none)
            | (st1, some args) =>
              match applyPrim c args with
              | none => (st1, none)
              | some v => (st1, some (res ++ [v]))
        | Kind.Name =>
          match getStr c with
          | none => (st, none)
          | some s =>
            match lookupEnv st env s with
            | none => (st, none)  -- Unbound variable
            | some x =>
              if x.kind ≠ Kind.Proc then evlistLoop fuel st e env (p + 1) (res ++ [x])
              else
                match collectArgs fuel st e env (p + 1) [] with
                | (st1, none) => (st1, none)
                | (st1, some args) =>
                  match applyProc fuel st1 x args with
                  | (st2, none) => (st2, none)
                  | (st2, some v) => (st2, some (res ++ [v]))
        | _ => (st, none)  -- throw runtime_error("Unmatched in evlist")
termination_by structural fuel _ _ _ _ _ => fuel

/-- The `while (++p != expr.end())` loop of `evlist`'s `Cond` case.
A matched clause `break`s back into the enclosing `for` loop, which
continues after the matched clause; exhaustion also `break`s, after
which the `for` loop increments the cursor past the end. -/
def condLoopEvlist : Nat → Interp → List Cell → EnvRef → Nat → List Cell →
    Interp × Option (List Cell)
  | 0, st, _, _, _, _ => (st, none)
  | fuel + 1, st, e, env, p, res =>
    if p = e.length then evlistLoop fuel st e env (p + 1) res
    else
      match (e.get? p).bind getList with
      | none => (st, none)
      | some clause =>
        match clause.get? 0 with
        | none => (st, none)
        | some c0 =>
          if c0.kind = Kind.Else then
            if p + 1 = e.length then
              match clause.get? 1 with
              | none => (st, none)
              | some c1 =>
                match eval fuel st [c1] env with
                | (st1, none) => (st1, none)
                | (st1, some v) => (st1, some (res ++ [v]))
            else (st, none)  -- Else clause not at end of condition
          else
            match eval fuel st [c0] env with
            | (st1, none) => (st1, none)
            | (st1, some v) =>
              if truthy v then
                match clause.get? 1 with
                | none => (st1, none)
                | some c1 =>
                  match eval fuel st1 [c1] env with
                  | (st2, none) => (st2, none)
                  | (st2, some w) => evlistLoop fuel st2 e env (p + 1) (res ++ [w])
              else condLoopEvlist fuel st1 e env (p + 1) res
termination_by structural fuel _ _ _ _ _ => fuel

end

/-- `evlist(expr, env)` - entry point of the `for` loop. -/
def evlist (fuel : Nat) (st : Interp) (e : List Cell) (env : EnvRef) :
    Interp × Option (List Cell) :=
  evlistLoop fuel st e env 0 []

/-! ## Printer -/

/-- `static_cast<char>(kind)`: the character value of each `Kind`
alternative of the C++ enum (the first eight have the implicit values
0 to 7). -/
def kindChar : Kind → Char
  | .Include => '\x00' | .Begin => '\x01' | .Cat => '\x02' | .Cons => '\x03'
  | .Car => '\x04' | .Cdr => '\x05' | .List => '\x06' | .Let => '\x07'
  | .Define => 'd' | .Lambda => 'l' | .Number => '#' | .Name => 'n'
  | .Expr => 'e' | .Proc => 'p' | .False => 'f' | .True => 't'
  | .Cond => 'c' | .Else => ',' | .End => '.' | .Empty => ' '
  | .Quote => '\'' | .Lp => '(' | .Rp => ')' | .And => '&'
  | .Not => '!' | .Or => '|'
  | .Mul => '*' | .Add => '+' | .Sub => '-' | .Div => '/'
  | .Less => '<' | .Equal => '=' | .Greater => '>'
  | .Comment => ';'

/-- The `if (kind != Number && kind != Name && kind != Expr)` guard of
the printer: such cells print their kind character. -/
def printsKindChar (k : Kind) : Bool :=
  k ≠ Kind.Number && k ≠ Kind.Name && k ≠ Kind.Expr

mutual
/-- `print_visitor` with terminator `e` (`" "` by default, `""` for
the last element of a list).  `cout << num` prints the integral
doubles modelled here without a decimal point, as `toString` on `Int`
does. -/
def printData (e : String) : Data → String
  | .str s => s ++ e
  | .num n => toString n ++ e
  | .procRef _ => "proc" ++ e
  | .list l =>
    "(" ++ (match l with
      | [] => ""
      | c :: _ =>
        (if printsKindChar c.kind then String.singleton (kindChar c.kind) else "")
          ++ printSeq l) ++ ")" ++ e

/-- The element loop of `print_visitor`'s list case: every element's
data with `" "`, the last with `""`. -/
def printSeq : List Cell → String
  | [] => ""
  | [Cell.mk _ d] => printData "" d
  | Cell.mk _ d :: rest => printData " " d ++ printSeq rest
end

/-- `print(cell)` / `operator<<`. -/
def printCell (c : Cell) : String :=
  (if printsKindChar c.kind then String.singleton (kindChar c.kind) else "")
    ++ printData " " c.data

/-! ## Embedded entry point

`expr_str` lives in the emscripten binding translation unit; the
headers it includes (`parser.h`, `lexer.h`, `environment.h`) are not
part of the sources at hand, so the functions it calls are the
`expr` / `eval` / printer definitions above (modelled from the main
translation unit, which the spec describes as the same pipeline).
The evaluator's diagnostic printing goes to `cout`, not to the
`ostringstream` that `outstream` is pointed at, so in this model no
side-effect output accumulates in `out` during evaluation and the
returned string is the printed result. -/

structure ExprStrState where
  inited : Bool
  interp : Interp

/-- `init_env()`: the `reserve` calls do not change contents;
`envs.push_back(e0)` seeds the arena with a copy of the global
environment. -/
def init_env (st : Interp) : Interp :=
  { st with envs := st.envs ++ [⟨st.e0, none⟩] }

/-- `expr_str(input)`: initialize globals on the first call only
(guarded by the function-static `inited` flag), parse one top-level
expression from the input, evaluate it against `&e0`, and return the
stream contents - the output accumulated during evaluation followed by
the printed result.  An evaluation error propagates to the caller
(`none`). -/
def expr_str (fuel : Nat) (st : ExprStrState) (input : String) :
    ExprStrState × Option String :=
  let st1 : ExprStrState := if st.inited then st else ⟨true, init_env st.interp⟩
  let (_, ast) := exprParse fuel input.toList true
  match ast with
  | none => (st1, none)
  | some l =>
    match eval fuel st1.interp l EnvRef.global with
    | (i, some res) => (⟨st1.inited, i⟩, some (printCell res))
    | (i, none) => (⟨st1.inited, i⟩, none)

/-! ## Auxiliary definitions for the claims -/

/-- The initial interpreter state: empty global environment, empty
arenas, no stack locals. -/
def interp0 : Interp := ⟨[], [], [], []⟩

/-- Pairwise comparison of corresponding elements through the `=`
primitive (`apply_prim(Equal, [x, y])`); an element pair on which `=`
fails is the error branch. -/
def listEqPairs : List Cell → List Cell → Option Bool
  | x :: xs, y :: ys =>
    match applyPrim (mkK Kind.Equal) [x, y] with
    | none => none
    | some c => if c.kind = Kind.True then listEqPairs xs ys else some false
  | _, _ => some true
termination_by structural a _ => a

/-- Elementwise comparison of two lists through the `=` primitive:
equal lengths and every corresponding pair of elements made equal by
`=`.  This is the "elementwise equal, where equality is the `=`
primitive" reading of the car/cdr duality property. -/
def listEqByPrim (xs ys : List Cell) : Option Bool :=
  if xs.length = ys.length then listEqPairs xs ys else some false

/-- The parsed form of `(cons (car 'l) (cdr 'l))` for a quoted list
value `l`. -/
def consCarCdrAst (l : Cell) : List Cell :=
  [mkK Kind.Cons, exprCell [mkK Kind.Car, mkK Kind.Quote, l],
   exprCell [mkK Kind.Cdr, mkK Kind.Quote, l]]

/-- The parsed form of `(define f (let ((a 2)) (lambda (x) (+ x a))))`:
a closure created inside a `let` body escapes the `let`. -/
def letClosureDefine : List Cell :=
  [mkK Kind.Define, nameCell "f",
   exprCell [mkK Kind.Let,
     exprCell [exprCell [nameCell "a", numCell 2]],
     exprCell [mkK Kind.Lambda, exprCell [nameCell "x"],
               exprCell [mkK Kind.Add, nameCell "x", nameCell "a"]]]]

/-- A `let` whose body defines the same closure and applies it while
the `let` frame is still alive.  (Given at the AST level with a
`Begin` cell: the lexer never produces the `Begin` kind because `b`
is not in its keyword-start character set, an independent quirk.) -/
def letClosureInside : List Cell :=
  [mkK Kind.Let, exprCell [exprCell [nameCell "a", numCell 2]],
   exprCell [mkK Kind.Begin,
     exprCell [mkK Kind.Define, nameCell "g",
       exprCell [mkK Kind.Lambda, exprCell [nameCell "x"],
                 exprCell [mkK Kind.Add, nameCell "x", nameCell "a"]]],
     exprCell [nameCell "g", numCell 1]]]

/-- `(begin (define x 5) y)` at the AST level: a compound form whose
later part fails after a `define` has already mutated the global
environment. -/
def beginDefineFail : List Cell :=
  [mkK Kind.Begin, exprCell [mkK Kind.Define, nameCell "x", numCell 5], nameCell "y"]

/-! ## The claims -/

/-- Claim C1 (code bug).  The claim says the lexer maps the spelling
`not` to the `Not` kind and `(not e)` computes logical negation.  In
the source the keyword table maps `"not"` to `Kind::Or`, so `(not e)`
evaluates as the `or` primitive: on the source text `(not (< 2 1))`,
whose argument evaluates to a `False` cell, the program yields
`False`, whereas logical negation - the `Not` primitive, which the
lexer can never emit - yields `True` on the same argument. -/
theorem C1_not_lexes_and_evaluates_as_or :
    keywordsFind "not" = some Kind.Or ∧
    (exprParse 100 "(not (< 2 1))".toList true).2
      = some [mkK Kind.Or, exprCell [mkK Kind.Less, numCell 2, numCell 1]] ∧
    eval 100 interp0 [mkK Kind.Or, exprCell [mkK Kind.Less, numCell 2, numCell 1]]
        EnvRef.global
      = (interp0, some (mkK Kind.False)) ∧
    applyPrim (mkK Kind.Not) [mkK Kind.False] = some (mkK Kind.True) :=
  ⟨rfl, rfl, rfl, rfl⟩

/-- Claim C2 (code bug).  The claim says a `cond` with no matching
predicate and no `else` returns the unit `End` cell without error.
In the source, the `Cond` case's `while` loop exits with the cursor
at `expr.end()` and falls through (no `break`) into the adjacent
primitive-procedures case, which dereferences the end iterator: on
`(cond ((< 2 1) 5))` evaluation takes the error/undefined branch
instead of producing the `End` cell. -/
theorem C2_cond_no_match_is_error_not_end :
    (exprParse 100 "(cond ((< 2 1) 5))".toList true).2
      = some [mkK Kind.Cond,
              exprCell [exprCell [mkK Kind.Less, numCell 2, numCell 1], numCell 5]] ∧
    eval 100 interp0
        [mkK Kind.Cond,
         exprCell [exprCell [mkK Kind.Less, numCell 2, numCell 1], numCell 5]]
        EnvRef.global
      = (interp0, none) :=
  ⟨rfl, rfl⟩

/-- Claim C3 (code bug).  The claim says every environment frame,
including `let` frames, is retained for the life of the interpreter,
so a closure created in a `let` body still resolves its free
variables after the `let` returns.  In the source the `let` frame is
a block-scoped stack object (`Env localenv {env}`, with
`envs.push_back(localenv)` commented out), destroyed when the `let`
case returns: defining `f` as `(let ((a 2)) (lambda (x) (+ x a)))`
leaves a procedure whose environment pointer refers to the dead
frame, and `(f 1)` afterwards fails on the dangling dereference,
while the same closure applied inside the `let` body correctly sees
`a` and yields 3. -/
theorem C3_let_frame_dies_dangling_closure :
    (exprParse 100 "(define f (let ((a 2)) (lambda (x) (+ x a))))".toList true).2
      = some letClosureDefine ∧
    (eval 100 interp0 letClosureDefine EnvRef.global).2 = some (procCell 0) ∧
    (eval 100 interp0 letClosureDefine EnvRef.global).1.procs
      = [⟨[nameCell "x"], [mkK Kind.Add, nameCell "x", nameCell "a"],
          EnvRef.stackLoc 0⟩] ∧
    (eval 100 interp0 letClosureDefine EnvRef.global).1.locals = [none] ∧
    (eval 100 (eval 100 interp0 letClosureDefine EnvRef.global).1
        [nameCell "f", numCell 1] EnvRef.global).2 = none ∧
    (eval 100 interp0 letClosureInside EnvRef.global).2 = some (numCell 3) :=
  ⟨rfl, rfl, rfl, rfl, rfl, rfl⟩

/-- Counterexample to claim C4.  The claim says a failed top-level
expression leaves the global environment unchanged, in particular
that a `define` inside a failed `begin` leaves no binding.  Evaluating
`(begin (define x 5) y)` with `y` unbound fails, yet the global
environment afterwards contains `x` bound to 5. -/
theorem C4_counterexample_begin_define_persists :
    (eval 100 interp0 beginDefineFail EnvRef.global).2 = none ∧
    (eval 100 interp0 beginDefineFail EnvRef.global).1.e0 = [("x", numCell 5)] :=
  ⟨rfl, rfl⟩

/-- Claim C4 as amended.  A `define` whose own value expression fails
performs no binding (the assignment happens only after the value
evaluates successfully), but mutations made by completed sub-forms of
a failed expression persist: there is no rollback, so a `define`
completed inside a `begin` whose later part fails keeps its binding. -/
theorem C4_amended_binding_discipline :
    eval 100 interp0 [mkK Kind.Define, nameCell "x", nameCell "y"] EnvRef.global
      = (interp0, none) ∧
    lookupEnv (eval 100 interp0 beginDefineFail EnvRef.global).1 EnvRef.global "x"
      = some (numCell 5) :=
  ⟨rfl, rfl⟩

/-- Counterexample to claim C5.  The claim says `=` compares two Proc
values by pointer identity and two Expr values elementwise.  In the
source, a non-`Number` first argument is read with
`boost::get<string>`, which throws on a `Proc*` or `List` payload:
`=` on two identical Proc handles, and on two equal lists, takes the
error branch instead of returning `True`. -/
theorem C5_counterexample_equal_proc_list_error :
    applyPrim (mkK Kind.Equal) [procCell 0, procCell 0] = none ∧
    applyPrim (mkK Kind.Equal) [exprCell [numCell 1], exprCell [numCell 1]] = none :=
  ⟨rfl, rfl⟩

/-- Claim C5 as amended.  `=` with two arguments: if the first is a
`Number`, numeric equality when the second is also a `Number`; if the
first is a `Name`, string equality when the second is a `Name`; if
the first argument is a `Proc` or an `Expr`, the primitive fails
(`boost::get<string>` on a non-string payload), so the
pointer-identity and elementwise branches of `equal_visitor` are
unreachable through `=`. -/
theorem C5_amended_equal_dispatch :
    (∀ d d2 : Int, applyPrim (mkK Kind.Equal) [numCell d, numCell d2]
        = some (boolCell (decide (d = d2)))) ∧
    (∀ s s2 : String, applyPrim (mkK Kind.Equal) [nameCell s, nameCell s2]
        = some (boolCell (decide (s = s2)))) ∧
    (∀ p q : Nat, applyPrim (mkK Kind.Equal) [procCell p, procCell q] = none) ∧
    (∀ l m : List Cell, applyPrim (mkK Kind.Equal) [exprCell l, exprCell m] = none) :=
  ⟨fun _ _ => rfl, fun _ _ => rfl, fun _ _ => rfl, fun _ _ => rfl⟩

/-- Counterexample to claim C6.  The claim says that for every list
`l` with at least 2 elements, `(cons (car l) (cdr l))` is elementwise
equal to `l`.  For the 3-element list `(1 2 3)`, `cdr` returns the
tail as a single list value and `cons` wraps its two arguments, so
the result is the 2-element list `(1 (2 3))`, not elementwise equal
to `(1 2 3)`. -/
theorem C6_counterexample_three_element_list :
    (exprParse 100 "(cons (car '(1 2 3)) (cdr '(1 2 3)))".toList true).2
      = some (consCarCdrAst (exprCell [numCell 1, numCell 2, numCell 3])) ∧
    (eval 100 interp0 (consCarCdrAst (exprCell [numCell 1, numCell 2, numCell 3]))
        EnvRef.global).2
      = some (exprCell [numCell 1, exprCell [numCell 2, numCell 3]]) ∧
    listEqByPrim [numCell 1, exprCell [numCell 2, numCell 3]]
        [numCell 1, numCell 2, numCell 3] = some false :=
  ⟨rfl, rfl, rfl⟩

/-- Claim C6 as amended.  For every list value `l` with exactly 2
elements, evaluating `(cons (car l) (cdr l))` reproduces `l` itself
(so in particular the result is elementwise equal to `l` wherever the
`=` primitive is defined on the elements, e.g. on number elements).
The `cdr` unwrap special case for 2-element lists is exactly what
makes this work, and only for that length. -/
theorem C6_amended_two_element_list :
    (∀ a b : Cell, ∀ st : Interp, ∀ env : EnvRef,
        eval 20 st (consCarCdrAst (exprCell [a, b])) env
          = (st, some (exprCell [a, b]))) ∧
    listEqByPrim [numCell 1, numCell 2] [numCell 1, numCell 2] = some true :=
  ⟨fun _ _ _ _ => rfl, rfl⟩

/-- Claim C7 (code bug).  The claim describes `cdr`'s contract,
including "an `Expr` with 0 or 1 elements gives the empty list".  The
source only tests `size() == 1`; for the empty list the fall-through
constructs `List{list.begin() + 1, list.end()}`, an invalid iterator
range on an empty vector, so `(cdr l)` on the empty list is the
undefined branch rather than the empty list.  All other branches are
as claimed: non-`Expr` arguments give the empty list, a 1-element
list gives the empty list, a 2-element list gives its second element
unwrapped, and longer lists give the tail as a new `Expr`. -/
theorem C7_cdr_contract_empty_list_error :
    (∀ n : Int, applyPrim (mkK Kind.Cdr) [numCell n] = some (exprCell [])) ∧
    (∀ s : String, applyPrim (mkK Kind.Cdr) [nameCell s] = some (exprCell [])) ∧
    (∀ c : Cell, applyPrim (mkK Kind.Cdr) [exprCell [c]] = some (exprCell [])) ∧
    (∀ c d : Cell, applyPrim (mkK Kind.Cdr) [exprCell [c, d]] = some d) ∧
    (∀ c d e2 : Cell, ∀ l : List Cell,
        applyPrim (mkK Kind.Cdr) [exprCell (c :: d :: e2 :: l)]
          = some (exprCell (d :: e2 :: l))) ∧
    applyPrim (mkK Kind.Cdr) [exprCell []] = none :=
  ⟨fun _ => rfl, fun _ => rfl, fun _ => rfl, fun _ _ => rfl, fun _ _ _ _ => rfl, rfl⟩

/-- Claim C8 (confirmed).  `expr_str` evaluates exactly one top-level
expression from the input (on `"(+ 1 2) (+ 3 4)"` the result is the
printed value `"3 "` of the first expression only), initializes the
globals only on the first call (the first call from an uninitialized
state seeds the environment arena; a second call leaves the seeded
arena untouched), and in every case the returned state is
initialized. -/
theorem C8_expr_str_contract :
    (expr_str 200 ⟨false, interp0⟩ "(+ 1 2) (+ 3 4)").2 = some "3 " ∧
    (expr_str 200 ⟨false, interp0⟩ "(+ 1 2) (+ 3 4)").1
      = ⟨true, ⟨[], [⟨[], none⟩], [], []⟩⟩ ∧
    (expr_str 200 ⟨true, ⟨[], [⟨[], none⟩], [], []⟩⟩ "(+ 3 4)").2 = some "7 " ∧
    (expr_str 200 ⟨true, ⟨[], [⟨[], none⟩], [], []⟩⟩ "(+ 3 4)").1
      = ⟨true, ⟨[], [⟨[], none⟩], [], []⟩⟩ ∧
    (∀ st : ExprStrState, ∀ input : String,
        ((expr_str 200 st input).1).inited = true) := by
  refine ⟨rfl, rfl, rfl, rfl, fun st input => ?_⟩
  unfold expr_str
  cases hb : st.inited <;> simp only [hb, if_true, if_false, Bool.false_eq_true] <;>
    split <;> (try split) <;> simp_all

/-- Claim C9 (confirmed).  For every pair of fully evaluated cells
`a` and `b`, `apply_prim(Greater, [a, b])` returns exactly the same
result as `apply_prim(Less, [b, a])`: both dispatch on `b`'s kind,
store `b`'s payload in the visitor and visit `a`'s payload, including
identical error behaviour. -/
theorem C9_greater_is_less_swapped (a b : Cell) :
    applyPrim (mkK Kind.Greater) [a, b] = applyPrim (mkK Kind.Less) [b, a] := rfl

/-- Claim C10 (confirmed).  `car` applied to an empty `Expr` indexes
position 0 of the empty element sequence with no guard, which in this
total embedding is the reachable error branch; a non-`Expr` argument
is returned unchanged, and on a non-empty `Expr` the first element is
returned, so `car` is well-defined on `Expr` arguments exactly under
the precondition that they are non-empty. -/
theorem C10_car_partiality :
    applyPrim (mkK Kind.Car) [exprCell []] = none ∧
    (∀ c : Cell, c.kind ≠ Kind.Expr → applyPrim (mkK Kind.Car) [c] = some c) ∧
    (∀ a : Cell, ∀ l : List Cell,
        applyPrim (mkK Kind.Car) [exprCell (a :: l)] = some a) := by
  refine ⟨rfl, fun c h => ?_, fun _ _ => rfl⟩
  rcases c with ⟨k, d⟩
  simp only [Cell.kind] at h
  simp [applyPrim, mkK, Cell.kind, h]

/-- Witness for C10: the hypothesis of the non-`Expr` clause holds at
the concrete cell `5`, which `car` returns unchanged. -/
theorem C10_car_partiality_witness :
    applyPrim (mkK Kind.Car) [numCell 5] = some (numCell 5) :=
  C10_car_partiality.2.1 (numCell 5) (by decide)

end Clisp
